import Mathlib

/-!
Verification of the client factory of the `cli` repository
(`pkg/apiclient/client_factory.go`).

The factory lazily resolves which "space" (a multi-tenancy scope on the
server) to bind API calls to, memoizes a system-scoped and a space-scoped
API handle, and exposes:
  GetSpacedClient, GetSystemClient, GetActiveSpace, SetSpaceNameOrId,
plus the environment-driven constructors `NewClientFactory` and
`NewClientFactoryFromEnvironment` with `ValidateMandatoryEnvironment`.

External effects (the network calls `Spaces.GetAll` and
`octopusApiClient.NewClient`, the interactive prompt `question.SelectMap`,
and `url.Parse`) live outside this repository; they are modelled as
parameters (`World`, `parseURL`).  Errors are modelled as values
(`GoError`), since the Go code only ever creates, wraps and compares
message-carrying error values.  Each operation additionally returns the
list of external events it performed (`Event`), so that statements such
as "auto-selects without prompting" are expressible.
-/

/-- A space on the server: identified by name and ID
(`go-octopusdeploy/pkg/spaces.Space`, the two fields the factory reads). -/
structure Space where
  ID : String
  Name : String
  deriving DecidableEq, Repr

/-- An API handle (`octopusApiClient.Client`), recorded by the space ID it
was constructed with (empty string for the system-scoped handle). -/
structure OctopusClient where
  spaceID : String
  deriving DecidableEq, Repr

/-- A parsed server URL (`net/url.URL`), kept abstract as its raw text. -/
structure URL where
  raw : String
  deriving DecidableEq, Repr

/-- Go error values created or propagated by the factory: plain message
errors (`errors.New` / `fmt.Errorf`) and the multierror of missing
environment variables built by `ValidateMandatoryEnvironment`. -/
inductive GoError where
  | msg (s : String)
  | envMissing (vars : List String)
  deriving DecidableEq, Repr

/-- The printed text of an error (used when `fmt.Errorf` interpolates an
underlying error with `%v`). -/
def GoError.text : GoError → String
  | .msg s => s
  | .envMissing vars =>
      String.intercalate "; " (vars.map (fun v => "missing " ++ v))

/-- External events an operation may perform, in order:
listing all spaces, prompting the user, constructing an API client
bound to the given space ID. -/
inductive Event where
  | listedSpaces
  | prompted
  | constructedClient (spaceID : String)
  deriving DecidableEq, Repr

/-- The behaviour of the world outside the repository during one call:
the result of `systemClient.Spaces.GetAll()`, the outcome of the
interactive single-select prompt (`question.SelectMap`), and the result
of `octopusApiClient.NewClient` for a given space ID. -/
structure World where
  getAllSpaces : Except GoError (List Space)
  askSelect : List Space → Except GoError Space
  newClient : String → Except GoError OctopusClient

/-- The factory state (`apiclient.Client` struct).  `Ask` is `true` when
an asker is present (interactive mode) and `false` when it is nil
(automation mode).  The `HttpClient` field carries no behaviour in the
model (it is only threaded into `NewClient`, which `World` abstracts). -/
structure Client where
  SystemClient : Option OctopusClient
  SpaceScopedClient : Option OctopusClient
  ApiUrl : URL
  ApiKey : String
  SpaceNameOrID : String
  ActiveSpace : Option Space
  Ask : Bool
  deriving DecidableEq, Repr

/-- `strings.EqualFold` restricted to ASCII case folding, the model of
case-insensitive comparison used by the space lookup: the two strings
are equal after lowercasing each character. -/
def eqFold (a b : String) : Bool :=
  a.data.map Char.toLower == b.data.map Char.toLower

/-- The error returned when no space is specified in automation mode
(line 158 of `client_factory.go`). -/
def spaceMustBeSpecifiedError : GoError :=
  .msg "space must be specified when not running interactively; please set the OCTOPUS_SPACE environment variable or specify --space on the command line"

/-- The error returned when the server reports zero spaces in the
interactive branch (line 168). -/
def noSpacesFoundError : GoError :=
  .msg "no spaces found"

/-- A single-quote character, written via its code point to keep string
literals free of quote characters. -/
def singleQuote : String :=
  String.singleton (Char.ofNat 39)

/-- The wrapping applied at line 194:
`fmt.Errorf("cannot load spaces. Error: %v", err)`. -/
def wrapLoadSpacesError (e : GoError) : GoError :=
  .msg ("cannot load spaces. Error: " ++ e.text)

/-- The error returned when the requested identifier matches no space
(line 213): `fmt.Errorf("cannot find space %s", ...)` with the
identifier in single quotes. -/
def cannotFindSpaceError (nameOrId : String) : GoError :=
  .msg ("cannot find space " ++ singleQuote ++ nameOrId ++ singleQuote)

/-- `Client.GetActiveSpace` (line 126): returns the cached resolved
space, absent if resolution has not happened. -/
def getActiveSpace (c : Client) : Option Space :=
  c.ActiveSpace

/-- `Client.SetSpaceNameOrId` (lines 130-139): clears the system handle,
the space-scoped handle and the resolved space, and stores the new
requested identifier. -/
def setSpaceNameOrId (spaceNameOrId : String) (c : Client) : Client :=
  { c with
    SystemClient := none
    SpaceScopedClient := none
    ActiveSpace := none
    SpaceNameOrID := spaceNameOrId }

/-- `Client.GetSystemClient` (lines 231-255): returns the space-scoped
handle if cached, else the memoized system handle, else constructs a
client with empty space ID and caches it. -/
def getSystemClient (w : World) (c : Client) :
    Except GoError OctopusClient × Client × List Event :=
  match c.SpaceScopedClient with
  | some spaceScoped => (.ok spaceScoped, c, [])
  | none =>
    match c.SystemClient with
    | some sys => (.ok sys, c, [])
    | none =>
      match w.newClient "" with
      | .error e => (.error e, c, [.constructedClient ""])
      | .ok sys => (.ok sys, { c with SystemClient := some sys }, [.constructedClient ""])

/-- The lookup loop of `GetSpacedClient` (lines 197-210): scan the
spaces; the first case-insensitive name match wins immediately; a
case-insensitive ID match is remembered (later ID matches overwrite) and
is used only if the scan finds no name match. -/
def findSpaceLoop (spaceNameOrID : String) :
    List Space → Option Space → Option Space
  | [], foundSpaceByID => foundSpaceByID
  | space :: rest, foundSpaceByID =>
    if eqFold space.Name spaceNameOrID then some space
    else if eqFold space.ID spaceNameOrID then
      findSpaceLoop spaceNameOrID rest (some space)
    else
      findSpaceLoop spaceNameOrID rest foundSpaceByID

/-- The tail of `GetSpacedClient` (lines 221-228): construct the
space-scoped client, cache it, and drop the system handle. -/
def finishScoped (w : World) (c : Client) (foundSpaceID : String)
    (t : List Event) : Except GoError OctopusClient × Client × List Event :=
  match w.newClient foundSpaceID with
  | .error e => (.error e, c, t ++ [.constructedClient foundSpaceID])
  | .ok scopedClient =>
      (.ok scopedClient,
       { c with SpaceScopedClient := some scopedClient, SystemClient := none },
       t ++ [.constructedClient foundSpaceID])

/-- The `if foundSpaceID == ""` block of `GetSpacedClient`
(lines 188-219) followed by the scoped-client construction: when
`foundSpaceID` is still empty, list all spaces (wrapping a listing error
at line 194), run the name-first-then-ID lookup, fail naming the
identifier on no match, otherwise record the resolved space; then build
and cache the scoped client. -/
def lookupThenFinish (w : World) (c : Client) (foundSpaceID : String)
    (t : List Event) : Except GoError OctopusClient × Client × List Event :=
  if foundSpaceID = "" then
    match w.getAllSpaces with
    | .error e => (.error (wrapLoadSpacesError e), c, t ++ [.listedSpaces])
    | .ok allSpaces =>
      match findSpaceLoop c.SpaceNameOrID allSpaces none with
      | none =>
          (.error (cannotFindSpaceError c.SpaceNameOrID), c, t ++ [.listedSpaces])
      | some foundSpace =>
          finishScoped w
            { c with ActiveSpace := some foundSpace, SpaceNameOrID := foundSpace.ID }
            foundSpace.ID (t ++ [.listedSpaces])
  else
    finishScoped w c foundSpaceID t

/-- `Client.GetSpacedClient` (lines 141-229): return the cached scoped
handle if present; obtain a system handle; if no identifier is set,
fail in automation mode, otherwise list spaces and auto-select a single
space or prompt among several; then (unless selection already yielded a
non-empty space ID) look the identifier up name-first-then-ID; finally
construct and cache the space-scoped client. -/
def getSpacedClient (w : World) (c : Client) :
    Except GoError OctopusClient × Client × List Event :=
  match c.SpaceScopedClient with
  | some spaceScoped => (.ok spaceScoped, c, [])
  | none =>
    match getSystemClient w c with
    | (.error e, c1, t1) => (.error e, c1, t1)
    | (.ok _, c1, t1) =>
      if c1.SpaceNameOrID = "" then
        if c1.Ask = false then
          (.error spaceMustBeSpecifiedError, c1, t1)
        else
          match w.getAllSpaces with
          | .error e => (.error e, c1, t1 ++ [.listedSpaces])
          | .ok allSpaces =>
            match allSpaces with
            | [] => (.error noSpacesFoundError, c1, t1 ++ [.listedSpaces])
            | [selectedSpace] =>
                lookupThenFinish w
                  { c1 with ActiveSpace := some selectedSpace,
                            SpaceNameOrID := selectedSpace.ID }
                  selectedSpace.ID (t1 ++ [.listedSpaces])
            | _ :: _ :: _ =>
              match w.askSelect allSpaces with
              | .error e => (.error e, c1, t1 ++ [.listedSpaces, .prompted])
              | .ok selectedSpace =>
                  lookupThenFinish w
                    { c1 with ActiveSpace := some selectedSpace,
                              SpaceNameOrID := selectedSpace.ID }
                    selectedSpace.ID (t1 ++ [.listedSpaces, .prompted])
      else
        lookupThenFinish w c1 "" t1

/-- `NewClientFactory` (lines 71-88): parse the host URL and build a
fresh factory with empty caches.  `parseURL` abstracts `url.Parse`. -/
def newClientFactory (parseURL : String → Except GoError URL)
    (host apiKey spaceNameOrID : String) (ask : Bool) :
    Except GoError Client :=
  match parseURL host with
  | .error e => .error e
  | .ok hostUrl =>
      .ok { SystemClient := none
            SpaceScopedClient := none
            ApiUrl := hostUrl
            ApiKey := apiKey
            SpaceNameOrID := spaceNameOrID
            ActiveSpace := none
            Ask := ask }

/-- `ValidateMandatoryEnvironment` (lines 113-124): accumulate an
`OsEnvironmentError` for each empty mandatory variable into a
multierror; `ErrorOrNil` yields no error when none accumulated. -/
def validateMandatoryEnvironment (host apiKey : String) : Option GoError :=
  let vars :=
    (if host = "" then ["OCTOPUS_HOST"] else []) ++
    (if apiKey = "" then ["OCTOPUS_API_KEY"] else [])
  match vars with
  | [] => none
  | vs => some (.envMissing vs)

/-- The process environment as the factory reads it: the three variables
`OCTOPUS_HOST`, `OCTOPUS_API_KEY`, `OCTOPUS_SPACE` and whether `CI` is
present at all (`os.LookupEnv`). -/
structure Env where
  host : String
  apiKey : String
  space : String
  ciSet : Bool
  deriving DecidableEq, Repr

/-- `NewClientFactoryFromEnvironment` (lines 92-111): read the three
variables, disable prompting exactly when `CI` is present, validate the
mandatory variables, then construct the factory. -/
def newClientFactoryFromEnvironment
    (parseURL : String → Except GoError URL) (env : Env) :
    Except GoError Client :=
  let ask := !env.ciSet
  match validateMandatoryEnvironment env.host env.apiKey with
  | some errs => .error errs
  | none => newClientFactory parseURL env.host env.apiKey env.space ask

instance : DecidableEq (Except GoError OctopusClient) := fun a b =>
  match a, b with
  | .ok x, .ok y =>
      if h : x = y then .isTrue (by simp [h]) else .isFalse (by simp [h])
  | .error e, .error f =>
      if h : e = f then .isTrue (by simp [h]) else .isFalse (by simp [h])
  | .ok _, .error _ => .isFalse (by simp)
  | .error _, .ok _ => .isFalse (by simp)

/-- The two cache fields are never simultaneously populated. -/
def CacheOk (c : Client) : Prop :=
  c.SpaceScopedClient.isSome → c.SystemClient = none

theorem finishScoped_activeSpace (w : World) (c : Client) (fid : String)
    (t : List Event) :
    (finishScoped w c fid t).2.1.ActiveSpace = c.ActiveSpace := by
  unfold finishScoped
  cases w.newClient fid <;> simp

theorem getSystemClient_scoped_none (w : World) (c : Client)
    (h : c.SpaceScopedClient = none) :
    (getSystemClient w c).2.1.SpaceScopedClient = none ∧
    (getSystemClient w c).2.1.ActiveSpace = c.ActiveSpace ∧
    (getSystemClient w c).2.1.SpaceNameOrID = c.SpaceNameOrID ∧
    (getSystemClient w c).2.1.Ask = c.Ask := by
  unfold getSystemClient
  rw [h]
  cases hs : c.SystemClient
  · cases hn : w.newClient "" <;> simp [h]
  · simp [h]

/-- A world whose external calls all succeed trivially, used to
instantiate theorems at concrete inputs. -/
def wOkEmpty : World :=
  { getAllSpaces := .ok []
    askSelect := fun _ => .error (.msg "na")
    newClient := fun s => .ok ⟨s⟩ }

/-- A baseline concrete factory state with empty caches. -/
def cBase : Client :=
  { SystemClient := none
    SpaceScopedClient := none
    ApiUrl := ⟨"http://octopus.example"⟩
    ApiKey := "API-KEY"
    SpaceNameOrID := ""
    ActiveSpace := none
    Ask := true }

/-- C6: with a space-scoped handle cached, GetSystemClient returns that
handle, leaves the state unchanged and performs no construction (empty
event list): it never builds or returns a separate system handle. -/
theorem getSystemClient_prefers_scoped (w : World) (c : Client)
    (sc : OctopusClient) (h : c.SpaceScopedClient = some sc) :
    getSystemClient w c = (.ok sc, c, []) := by
  simp [getSystemClient, h]

theorem getSystemClient_prefers_scoped_witness :
    ({ cBase with SpaceScopedClient := some ⟨"Spaces-1"⟩ } : Client).SpaceScopedClient
        = some ⟨"Spaces-1"⟩ ∧
    getSystemClient wOkEmpty { cBase with SpaceScopedClient := some ⟨"Spaces-1"⟩ }
      = (.ok ⟨"Spaces-1"⟩, { cBase with SpaceScopedClient := some ⟨"Spaces-1"⟩ }, []) :=
  ⟨rfl, getSystemClient_prefers_scoped wOkEmpty
          { cBase with SpaceScopedClient := some ⟨"Spaces-1"⟩ } ⟨"Spaces-1"⟩ rfl⟩

/-- C4: with no identifier specified and prompting disabled (no asker),
GetSpacedClient returns an error, changes no space selection (active
space and requested identifier unchanged), never lists spaces and never
prompts; when the system handle is already cached the error is exactly
the automation-safety message. -/
theorem getSpacedClient_automation_guard (w : World) (c : Client)
    (hScoped : c.SpaceScopedClient = none) (hid : c.SpaceNameOrID = "")
    (hask : c.Ask = false) :
    (∃ e, (getSpacedClient w c).1 = Except.error e) ∧
    (getSpacedClient w c).2.1.ActiveSpace = c.ActiveSpace ∧
    (getSpacedClient w c).2.1.SpaceNameOrID = c.SpaceNameOrID ∧
    Event.prompted ∉ (getSpacedClient w c).2.2 ∧
    Event.listedSpaces ∉ (getSpacedClient w c).2.2 ∧
    (∀ sys, c.SystemClient = some sys →
      getSpacedClient w c = (.error spaceMustBeSpecifiedError, c, [])) := by
  unfold getSpacedClient getSystemClient
  rw [hScoped]
  cases hs : c.SystemClient with
  | some sys => simp [hid, hask]
  | none =>
    cases hn : w.newClient "" with
    | error e => simp [hid, hask]
    | ok sys => simp [hid, hask]

theorem getSpacedClient_automation_guard_witness :
    ({ cBase with SystemClient := some ⟨""⟩, Ask := false } : Client).SpaceScopedClient = none ∧
    getSpacedClient wOkEmpty { cBase with SystemClient := some ⟨""⟩, Ask := false }
      = (.error spaceMustBeSpecifiedError,
         { cBase with SystemClient := some ⟨""⟩, Ask := false }, []) :=
  ⟨rfl,
   (getSpacedClient_automation_guard wOkEmpty
      { cBase with SystemClient := some ⟨""⟩, Ask := false }
      rfl rfl rfl).2.2.2.2.2 ⟨""⟩ rfl⟩

/-- C5: SetSpaceNameOrId clears both cached handles and the resolved
space, stores the new identifier, makes GetActiveSpace return the absent
value, and the next GetSpacedClient is not served from a cache: it
performs the space listing again (shown here for a non-empty identifier,
with the system-client construction succeeding). -/
theorem setSpaceNameOrId_resets (c : Client) (id : String) (w : World)
    (h : OctopusClient) (hw : w.newClient "" = .ok h) (hid : id ≠ "") :
    (setSpaceNameOrId id c).SystemClient = none ∧
    (setSpaceNameOrId id c).SpaceScopedClient = none ∧
    (setSpaceNameOrId id c).ActiveSpace = none ∧
    (setSpaceNameOrId id c).SpaceNameOrID = id ∧
    getActiveSpace (setSpaceNameOrId id c) = none ∧
    Event.listedSpaces ∈ (getSpacedClient w (setSpaceNameOrId id c)).2.2 := by
  refine ⟨rfl, rfl, rfl, rfl, rfl, ?_⟩
  unfold getSpacedClient getSystemClient setSpaceNameOrId lookupThenFinish
  simp [hw, hid]
  cases hg : w.getAllSpaces with
  | error e => simp
  | ok l =>
    cases hf : findSpaceLoop id l none with
    | none => simp [hf]
    | some s =>
      unfold finishScoped
      cases hn : w.newClient s.ID <;> simp [hf, hn]

theorem setSpaceNameOrId_resets_witness :
    ("Spaces-2" : String) ≠ "" ∧
    (setSpaceNameOrId "Spaces-2" cBase).SystemClient = none ∧
    (setSpaceNameOrId "Spaces-2" cBase).SpaceScopedClient = none ∧
    (setSpaceNameOrId "Spaces-2" cBase).ActiveSpace = none ∧
    (setSpaceNameOrId "Spaces-2" cBase).SpaceNameOrID = "Spaces-2" ∧
    getActiveSpace (setSpaceNameOrId "Spaces-2" cBase) = none ∧
    Event.listedSpaces ∈ (getSpacedClient wOkEmpty (setSpaceNameOrId "Spaces-2" cBase)).2.2 :=
  ⟨by decide,
   setSpaceNameOrId_resets cBase "Spaces-2" wOkEmpty ⟨""⟩ rfl (by decide)⟩

theorem getSpacedClient_identifier_branch (w : World) (c : Client)
    (sys : OctopusClient) (hScoped : c.SpaceScopedClient = none)
    (hSys : c.SystemClient = some sys) (hne : c.SpaceNameOrID ≠ "") :
    getSpacedClient w c = lookupThenFinish w c "" [] := by
  unfold getSpacedClient getSystemClient
  rw [hScoped, hSys]
  simp [hne]

theorem findSpaceLoop_name_found (id : String) (l : List Space)
    (acc : Option Space) (hex : ∃ s ∈ l, eqFold s.Name id) :
    ∃ t ∈ l, eqFold t.Name id ∧ findSpaceLoop id l acc = some t := by
  induction l generalizing acc with
  | nil => rcases hex with ⟨s, hs, _⟩; cases hs
  | cons a rest ih =>
    by_cases ha : eqFold a.Name id
    · exact ⟨a, List.mem_cons_self a rest, ha, by simp [findSpaceLoop, ha]⟩
    · have hex2 : ∃ s ∈ rest, eqFold s.Name id := by
        rcases hex with ⟨s, hs, hn⟩
        rcases List.mem_cons.mp hs with h1 | h2
        · exact absurd (h1 ▸ hn) ha
        · exact ⟨s, h2, hn⟩
      by_cases hb : eqFold a.ID id
      · rcases ih (some a) hex2 with ⟨t, ht, hname, heq⟩
        exact ⟨t, List.mem_cons_of_mem a ht, hname, by simp [findSpaceLoop, ha, hb, heq]⟩
      · rcases ih acc hex2 with ⟨t, ht, hname, heq⟩
        exact ⟨t, List.mem_cons_of_mem a ht, hname, by simp [findSpaceLoop, ha, hb, heq]⟩

theorem findSpaceLoop_no_name (id : String) (l : List Space)
    (acc : Option Space) (hno : ∀ s ∈ l, ¬ eqFold s.Name id) (t : Space)
    (ht : findSpaceLoop id l acc = some t) :
    (t ∈ l ∧ eqFold t.ID id) ∨ acc = some t := by
  induction l generalizing acc with
  | nil => right; exact ht
  | cons a rest ih =>
    have ha := hno a (List.mem_cons_self a rest)
    have hno2 : ∀ s ∈ rest, ¬ eqFold s.Name id :=
      fun s hs => hno s (List.mem_cons_of_mem a hs)
    by_cases hb : eqFold a.ID id
    · simp only [findSpaceLoop, if_neg ha, if_pos hb] at ht
      rcases ih (some a) hno2 ht with ⟨hmem, hID⟩ | heq
      · exact Or.inl ⟨List.mem_cons_of_mem a hmem, hID⟩
      · left
        have hat : a = t := by injection heq
        exact ⟨hat ▸ List.mem_cons_self a rest, hat ▸ hb⟩
    · simp only [findSpaceLoop, if_neg ha, if_neg hb] at ht
      rcases ih acc hno2 ht with ⟨hmem, hID⟩ | heq
      · exact Or.inl ⟨List.mem_cons_of_mem a hmem, hID⟩
      · exact Or.inr heq

theorem findSpaceLoop_none_of_no_match (id : String) (l : List Space)
    (acc : Option Space)
    (hno : ∀ s ∈ l, ¬ eqFold s.Name id ∧ ¬ eqFold s.ID id) :
    findSpaceLoop id l acc = acc := by
  induction l generalizing acc with
  | nil => rfl
  | cons a rest ih =>
    have ha := hno a (List.mem_cons_self a rest)
    have hno2 : ∀ s ∈ rest, ¬ eqFold s.Name id ∧ ¬ eqFold s.ID id :=
      fun s hs => hno s (List.mem_cons_of_mem a hs)
    simp only [findSpaceLoop, if_neg ha.1, if_neg ha.2]
    exact ih acc hno2

theorem lookupThenFinish_empty_ok (w : World) (c : Client) (t : List Event)
    (l : List Space) (hall : w.getAllSpaces = .ok l) :
    lookupThenFinish w c "" t =
      match findSpaceLoop c.SpaceNameOrID l none with
      | none =>
          (.error (cannotFindSpaceError c.SpaceNameOrID), c, t ++ [.listedSpaces])
      | some foundSpace =>
          finishScoped w
            { c with ActiveSpace := some foundSpace, SpaceNameOrID := foundSpace.ID }
            foundSpace.ID (t ++ [.listedSpaces]) := by
  unfold lookupThenFinish
  rw [if_pos rfl, hall]

/-- C1: with a non-empty requested identifier, GetSpacedClient resolves
by case-insensitive name match first: if any listed space name-matches
the identifier, the resolved active space is a name-matching space (so a
space whose ID matches but whose name does not is never preferred); only
when no name matches can the resolved space be an ID match. -/
theorem getSpacedClient_name_first_then_id (w : World) (c : Client)
    (sys : OctopusClient) (l : List Space)
    (hScoped : c.SpaceScopedClient = none) (hSys : c.SystemClient = some sys)
    (hActive : c.ActiveSpace = none) (hne : c.SpaceNameOrID ≠ "")
    (hall : w.getAllSpaces = .ok l) :
    ((∃ s ∈ l, eqFold s.Name c.SpaceNameOrID) →
      ∃ t ∈ l, eqFold t.Name c.SpaceNameOrID ∧
        (getSpacedClient w c).2.1.ActiveSpace = some t) ∧
    ((∀ s ∈ l, ¬ eqFold s.Name c.SpaceNameOrID) →
      ∀ t, (getSpacedClient w c).2.1.ActiveSpace = some t →
        t ∈ l ∧ eqFold t.ID c.SpaceNameOrID) := by
  rw [getSpacedClient_identifier_branch w c sys hScoped hSys hne,
      lookupThenFinish_empty_ok w c [] l hall]
  constructor
  · intro hex
    rcases findSpaceLoop_name_found c.SpaceNameOrID l none hex with ⟨t, htl, hname, heq⟩
    refine ⟨t, htl, hname, ?_⟩
    simp [heq, finishScoped_activeSpace]
  · intro hno t hpost
    cases hf : findSpaceLoop c.SpaceNameOrID l none with
    | none =>
      simp [hf, hActive] at hpost
    | some u =>
      simp only [hf, finishScoped_activeSpace] at hpost
      simp at hpost
      rcases findSpaceLoop_no_name c.SpaceNameOrID l none hno u hf with ⟨hmem, hID⟩ | habs
      · exact hpost ▸ ⟨hmem, hID⟩
      · cases habs

/-- A server with two spaces where the identifier ALPHA matches the
first space by name and the second space by ID. -/
def wTwoSpaces : World :=
  { getAllSpaces := .ok [⟨"Spaces-1", "Alpha"⟩, ⟨"alpha", "Beta"⟩]
    askSelect := fun _ => .error (.msg "na")
    newClient := fun s => .ok ⟨s⟩ }

def cAlpha : Client :=
  { cBase with SystemClient := some ⟨""⟩, SpaceNameOrID := "ALPHA" }

theorem getSpacedClient_name_first_then_id_witness :
    ∃ t ∈ [(⟨"Spaces-1", "Alpha"⟩ : Space), ⟨"alpha", "Beta"⟩],
      eqFold t.Name cAlpha.SpaceNameOrID ∧
      (getSpacedClient wTwoSpaces cAlpha).2.1.ActiveSpace = some t :=
  (getSpacedClient_name_first_then_id wTwoSpaces cAlpha ⟨""⟩
      [⟨"Spaces-1", "Alpha"⟩, ⟨"alpha", "Beta"⟩]
      rfl rfl rfl (by decide) rfl).1
    ⟨⟨"Spaces-1", "Alpha"⟩, by decide, by decide⟩

/-- C8: with a non-empty requested identifier matching no listed space
by case-insensitive name or ID, GetSpacedClient fails with the
cannot-find-space error, whose message contains the identifier verbatim
between single quotes. -/
theorem getSpacedClient_no_match_names_identifier (w : World) (c : Client)
    (sys : OctopusClient) (l : List Space)
    (hScoped : c.SpaceScopedClient = none) (hSys : c.SystemClient = some sys)
    (hne : c.SpaceNameOrID ≠ "") (hall : w.getAllSpaces = .ok l)
    (hno : ∀ s ∈ l, ¬ eqFold s.Name c.SpaceNameOrID ∧ ¬ eqFold s.ID c.SpaceNameOrID) :
    (getSpacedClient w c).1 = .error (cannotFindSpaceError c.SpaceNameOrID) ∧
    ∃ pre post,
      cannotFindSpaceError c.SpaceNameOrID = .msg (pre ++ c.SpaceNameOrID ++ post) := by
  constructor
  · rw [getSpacedClient_identifier_branch w c sys hScoped hSys hne,
        lookupThenFinish_empty_ok w c [] l hall,
        findSpaceLoop_none_of_no_match c.SpaceNameOrID l none hno]
  · refine ⟨"cannot find space " ++ singleQuote, singleQuote, ?_⟩
    simp [cannotFindSpaceError, String.append_assoc]

theorem getSpacedClient_no_match_names_identifier_witness :
    (getSpacedClient wTwoSpaces
        { cBase with SystemClient := some ⟨""⟩, SpaceNameOrID := "Nope" }).1
      = .error (cannotFindSpaceError "Nope") ∧
    ∃ pre post, cannotFindSpaceError "Nope" = .msg (pre ++ "Nope" ++ post) :=
  getSpacedClient_no_match_names_identifier wTwoSpaces
    { cBase with SystemClient := some ⟨""⟩, SpaceNameOrID := "Nope" } ⟨""⟩
    [⟨"Spaces-1", "Alpha"⟩, ⟨"alpha", "Beta"⟩]
    rfl rfl (by decide) rfl (by decide)

theorem lookupThenFinish_trace_extends (w : World) (c : Client)
    (fid : String) (t : List Event) :
    ∃ t2, (lookupThenFinish w c fid t).2.2 = t ++ t2 ∧
      Event.prompted ∉ t2 := by
  unfold lookupThenFinish finishScoped
  by_cases hf : fid = ""
  · rw [if_pos hf]
    cases hg : w.getAllSpaces with
    | error e => exact ⟨[.listedSpaces], by simp, by simp⟩
    | ok l =>
      cases hfl : findSpaceLoop c.SpaceNameOrID l none with
      | none => exact ⟨[.listedSpaces], by simp [hfl], by simp⟩
      | some s =>
        cases hn : w.newClient s.ID with
        | error e =>
          exact ⟨[.listedSpaces, .constructedClient s.ID],
            by simp [hfl, hn], by simp⟩
        | ok sc =>
          exact ⟨[.listedSpaces, .constructedClient s.ID],
            by simp [hfl, hn], by simp⟩
  · rw [if_neg hf]
    cases hn : w.newClient fid with
    | error e => exact ⟨[.constructedClient fid], by simp [hn], by simp⟩
    | ok sc => exact ⟨[.constructedClient fid], by simp [hn], by simp⟩

theorem finishScoped_spaceName (w : World) (c : Client) (fid : String)
    (t : List Event) :
    (finishScoped w c fid t).2.1.SpaceNameOrID = c.SpaceNameOrID := by
  unfold finishScoped
  cases w.newClient fid <;> simp

theorem finishScoped_trace (w : World) (c : Client) (fid : String)
    (t : List Event) :
    (finishScoped w c fid t).2.2 = t ++ [.constructedClient fid] := by
  unfold finishScoped
  cases w.newClient fid <;> simp

theorem findSpaceLoop_singleton_self (id : String) (s : Space)
    (h : eqFold s.Name id ∨ eqFold s.ID id) :
    findSpaceLoop id [s] none = some s := by
  by_cases hn : eqFold s.Name id
  · simp [findSpaceLoop, hn]
  · rcases h with h | h
    · exact absurd h hn
    · simp [findSpaceLoop, hn, h]

theorem getSpacedClient_interactive_branch (w : World) (c : Client)
    (sys : OctopusClient) (hScoped : c.SpaceScopedClient = none)
    (hSys : c.SystemClient = some sys) (hid : c.SpaceNameOrID = "")
    (hask : c.Ask = true) :
    getSpacedClient w c =
      match w.getAllSpaces with
      | .error e => (.error e, c, [.listedSpaces])
      | .ok [] => (.error noSpacesFoundError, c, [.listedSpaces])
      | .ok [s] =>
          lookupThenFinish w
            { c with ActiveSpace := some s, SpaceNameOrID := s.ID } s.ID
            [.listedSpaces]
      | .ok (a :: b :: rest) =>
        match w.askSelect (a :: b :: rest) with
        | .error e => (.error e, c, [.listedSpaces, .prompted])
        | .ok s =>
            lookupThenFinish w
              { c with ActiveSpace := some s, SpaceNameOrID := s.ID } s.ID
              [.listedSpaces, .prompted] := by
  unfold getSpacedClient getSystemClient
  rw [hScoped, hSys]
  cases hg : w.getAllSpaces with
  | error e => simp [hid, hask, hg]
  | ok l =>
    rcases l with _ | ⟨a, _ | ⟨b, rest⟩⟩
    · simp [hid, hask, hg]
    · simp [hid, hask, hg, hScoped, hSys]
    · cases ha : w.askSelect (a :: b :: rest) <;>
        simp [hid, hask, hg, ha, hScoped, hSys]


theorem lookupThenFinish_nonempty (w : World) (c : Client) (fid : String)
    (t : List Event) (h : fid ≠ "") :
    lookupThenFinish w c fid t = finishScoped w c fid t := by
  unfold lookupThenFinish
  rw [if_neg h]

theorem lookupThenFinish_selected (w : World) (c : Client) (s : Space)
    (t : List Event) (hall : w.getAllSpaces = .ok [s]) :
    (lookupThenFinish w { c with ActiveSpace := some s, SpaceNameOrID := s.ID }
        s.ID t).2.1.ActiveSpace = some s ∧
    (lookupThenFinish w { c with ActiveSpace := some s, SpaceNameOrID := s.ID }
        s.ID t).2.1.SpaceNameOrID = s.ID := by
  by_cases hsid : s.ID = ""
  · rw [hsid, lookupThenFinish_empty_ok w _ t [s] hall]
    have hfl : findSpaceLoop ("" : String) [s] none = some s :=
      findSpaceLoop_singleton_self "" s (Or.inr (by simp [eqFold, hsid]))
    simp only [hsid, hfl, finishScoped_activeSpace, finishScoped_spaceName]
    simp [hsid]
  · rw [lookupThenFinish_nonempty w _ s.ID t hsid]
    rw [finishScoped_activeSpace, finishScoped_spaceName]
    simp

/-- C7: with no identifier specified and prompting enabled, a listing
with exactly one space auto-selects it (active space and requested
identifier set to that space) without any prompt event; a listing with
two or more spaces triggers the interactive single-select prompt. -/
theorem getSpacedClient_single_auto_multi_prompt (w : World) (c : Client)
    (sys : OctopusClient) (hScoped : c.SpaceScopedClient = none)
    (hSys : c.SystemClient = some sys) (hid : c.SpaceNameOrID = "")
    (hask : c.Ask = true) :
    (∀ s, w.getAllSpaces = .ok [s] →
      (getSpacedClient w c).2.1.ActiveSpace = some s ∧
      (getSpacedClient w c).2.1.SpaceNameOrID = s.ID ∧
      Event.prompted ∉ (getSpacedClient w c).2.2) ∧
    (∀ a b rest, w.getAllSpaces = .ok (a :: b :: rest) →
      Event.prompted ∈ (getSpacedClient w c).2.2) := by
  rw [getSpacedClient_interactive_branch w c sys hScoped hSys hid hask]
  constructor
  · intro s hall
    rw [hall]
    refine ⟨(lookupThenFinish_selected w c s [.listedSpaces] hall).1,
            (lookupThenFinish_selected w c s [.listedSpaces] hall).2, ?_⟩
    rcases lookupThenFinish_trace_extends w
        { c with ActiveSpace := some s, SpaceNameOrID := s.ID } s.ID
        [.listedSpaces] with ⟨t2, ht, hnp⟩
    rw [ht]
    intro hmem
    rcases List.mem_append.mp hmem with h1 | h2
    · simp at h1
    · exact hnp h2
  · intro a b rest hall
    rw [hall]
    cases ha : w.askSelect (a :: b :: rest) with
    | error e => simp [ha]
    | ok s =>
      rcases lookupThenFinish_trace_extends w
          { c with ActiveSpace := some s, SpaceNameOrID := s.ID } s.ID
          [.listedSpaces, .prompted] with ⟨t2, ht, hnp⟩
      simp only [ha]
      rw [ht]
      simp

/-- A server offering exactly one space. -/
def wOneSpace : World :=
  { getAllSpaces := .ok [⟨"Spaces-1", "Default"⟩]
    askSelect := fun _ => .error (.msg "na")
    newClient := fun s => .ok ⟨s⟩ }

theorem getSpacedClient_single_auto_multi_prompt_witness :
    (getSpacedClient wOneSpace { cBase with SystemClient := some ⟨""⟩ }).2.1.ActiveSpace
        = some ⟨"Spaces-1", "Default"⟩ ∧
    (getSpacedClient wOneSpace { cBase with SystemClient := some ⟨""⟩ }).2.1.SpaceNameOrID
        = "Spaces-1" ∧
    Event.prompted ∉ (getSpacedClient wOneSpace { cBase with SystemClient := some ⟨""⟩ }).2.2 :=
  (getSpacedClient_single_auto_multi_prompt wOneSpace
      { cBase with SystemClient := some ⟨""⟩ } ⟨""⟩ rfl rfl rfl rfl).1
    ⟨"Spaces-1", "Default"⟩ rfl

/-- A server whose listing returns zero spaces. -/
def wZeroSpaces : World :=
  { getAllSpaces := .ok []
    askSelect := fun _ => .error (.msg "na")
    newClient := fun s => .ok ⟨s⟩ }

/-- C3 counterexample: with zero spaces but a requested identifier
specified, GetSpacedClient fails with the cannot-find-space error naming
the identifier, which is not the "no spaces found" error claimed. -/
theorem getSpacedClient_zero_spaces_counterexample :
    (getSpacedClient wZeroSpaces
        { cBase with SystemClient := some ⟨""⟩, SpaceNameOrID := "Nope" }).1
      = .error (cannotFindSpaceError "Nope") ∧
    cannotFindSpaceError "Nope" ≠ noSpacesFoundError := by
  exact ⟨rfl, by decide⟩

/-- C3 amended: with zero spaces listed (no scoped handle cached, system
handle available), GetSpacedClient always fails, but the error depends
on the branch: "no spaces found" only when no identifier is set and
prompting is enabled; the cannot-find-space error naming the identifier
when one is set; the automation-safety error (before any listing) when
no identifier is set and prompting is disabled. -/
theorem getSpacedClient_zero_spaces_fails (w : World) (c : Client)
    (sys : OctopusClient) (hScoped : c.SpaceScopedClient = none)
    (hSys : c.SystemClient = some sys) (hall : w.getAllSpaces = .ok []) :
    (∃ e, (getSpacedClient w c).1 = .error e) ∧
    (c.SpaceNameOrID = "" → c.Ask = true →
      (getSpacedClient w c).1 = .error noSpacesFoundError) ∧
    (c.SpaceNameOrID ≠ "" →
      (getSpacedClient w c).1 = .error (cannotFindSpaceError c.SpaceNameOrID)) ∧
    (c.SpaceNameOrID = "" → c.Ask = false →
      (getSpacedClient w c).1 = .error spaceMustBeSpecifiedError) := by
  have hInter : c.SpaceNameOrID = "" → c.Ask = true →
      (getSpacedClient w c).1 = .error noSpacesFoundError := by
    intro hid hask
    rw [getSpacedClient_interactive_branch w c sys hScoped hSys hid hask, hall]
  have hIdent : c.SpaceNameOrID ≠ "" →
      (getSpacedClient w c).1 = .error (cannotFindSpaceError c.SpaceNameOrID) := by
    intro hne
    rw [getSpacedClient_identifier_branch w c sys hScoped hSys hne,
        lookupThenFinish_empty_ok w c [] [] hall]
    rfl
  have hAuto : c.SpaceNameOrID = "" → c.Ask = false →
      (getSpacedClient w c).1 = .error spaceMustBeSpecifiedError := by
    intro hid hask
    unfold getSpacedClient getSystemClient
    rw [hScoped, hSys]
    simp [hid, hask]
  refine ⟨?_, hInter, hIdent, hAuto⟩
  by_cases hid : c.SpaceNameOrID = ""
  · cases hask : c.Ask
    · exact ⟨spaceMustBeSpecifiedError, hAuto hid hask⟩
    · exact ⟨noSpacesFoundError, hInter hid hask⟩
  · exact ⟨cannotFindSpaceError c.SpaceNameOrID, hIdent hid⟩

theorem getSpacedClient_zero_spaces_fails_witness :
    (getSpacedClient wZeroSpaces { cBase with SystemClient := some ⟨""⟩ }).1
      = .error noSpacesFoundError :=
  (getSpacedClient_zero_spaces_fails wZeroSpaces
      { cBase with SystemClient := some ⟨""⟩ } ⟨""⟩ rfl rfl rfl).2.1 rfl rfl

theorem lookupThenFinish_empty_err (w : World) (c : Client) (t : List Event)
    (e : GoError) (hall : w.getAllSpaces = .error e) :
    lookupThenFinish w c "" t
      = (.error (wrapLoadSpacesError e), c, t ++ [.listedSpaces]) := by
  unfold lookupThenFinish
  rw [if_pos rfl, hall]

/-- A server whose listing fails with the underlying error "boom". -/
def wListingBoom : World :=
  { getAllSpaces := .error (.msg "boom")
    askSelect := fun _ => .error (.msg "na")
    newClient := fun s => .ok ⟨s⟩ }

/-- C2 counterexample: with a space identifier specified, a failed
listing is not returned unmodified: the underlying error "boom" comes
back wrapped as "cannot load spaces. Error: boom". -/
theorem getSpacedClient_error_unmodified_counterexample :
    wListingBoom.getAllSpaces = .error (.msg "boom") ∧
    (getSpacedClient wListingBoom
        { cBase with SystemClient := some ⟨""⟩, SpaceNameOrID := "Default" }).1
      = .error (.msg "cannot load spaces. Error: boom") ∧
    (getSpacedClient wListingBoom
        { cBase with SystemClient := some ⟨""⟩, SpaceNameOrID := "Default" }).1
      ≠ .error (.msg "boom") := by
  refine ⟨rfl, rfl, ?_⟩
  decide

/-- C2 amended: every resolution step of GetSpacedClient that depends
on a network call surfaces the underlying error unmodified, except the
listing performed for a specified identifier (line 192), whose error is
wrapped as "cannot load spaces. Error: ...".  Unmodified cases: the
system-client construction, the listing in the prompt branch, the
prompt itself, and the space-scoped client construction. -/
theorem getSpacedClient_error_propagation (w : World) (c : Client)
    (hScoped : c.SpaceScopedClient = none) :
    (∀ e, c.SystemClient = none → w.newClient "" = .error e →
      (getSpacedClient w c).1 = .error e) ∧
    (∀ e sys, c.SystemClient = some sys → c.SpaceNameOrID = "" →
      c.Ask = true → w.getAllSpaces = .error e →
      (getSpacedClient w c).1 = .error e) ∧
    (∀ e sys a b rest, c.SystemClient = some sys → c.SpaceNameOrID = "" →
      c.Ask = true → w.getAllSpaces = .ok (a :: b :: rest) →
      w.askSelect (a :: b :: rest) = .error e →
      (getSpacedClient w c).1 = .error e) ∧
    (∀ e sys, c.SystemClient = some sys → c.SpaceNameOrID ≠ "" →
      w.getAllSpaces = .error e →
      (getSpacedClient w c).1 = .error (wrapLoadSpacesError e)) ∧
    (∀ e sys l t, c.SystemClient = some sys → c.SpaceNameOrID ≠ "" →
      w.getAllSpaces = .ok l → findSpaceLoop c.SpaceNameOrID l none = some t →
      w.newClient t.ID = .error e →
      (getSpacedClient w c).1 = .error e) := by
  refine ⟨?_, ?_, ?_, ?_, ?_⟩
  · intro e hSysNone hn
    unfold getSpacedClient getSystemClient
    rw [hScoped, hSysNone, hn]
  · intro e sys hSys hid hask hga
    rw [getSpacedClient_interactive_branch w c sys hScoped hSys hid hask, hga]
  · intro e sys a b rest hSys hid hask hga ha
    rw [getSpacedClient_interactive_branch w c sys hScoped hSys hid hask, hga]
    simp only [ha]
  · intro e sys hSys hne hga
    rw [getSpacedClient_identifier_branch w c sys hScoped hSys hne,
        lookupThenFinish_empty_err w c [] e hga]
  · intro e sys l t hSys hne hga hfl hn
    rw [getSpacedClient_identifier_branch w c sys hScoped hSys hne,
        lookupThenFinish_empty_ok w c [] l hga]
    simp only [hfl]
    unfold finishScoped
    rw [hn]

theorem getSpacedClient_error_propagation_witness :
    (getSpacedClient wListingBoom { cBase with SystemClient := some ⟨""⟩ }).1
      = .error (.msg "boom") :=
  (getSpacedClient_error_propagation wListingBoom
      { cBase with SystemClient := some ⟨""⟩ } rfl).2.1
    (.msg "boom") ⟨""⟩ rfl rfl rfl rfl

/-- A host parser that always succeeds, standing in for `url.Parse` on
well-formed hosts. -/
def parseAlwaysOk : String → Except GoError URL :=
  fun s => .ok ⟨s⟩

/-- C9: provided the host URL parses, construction from the environment
fails exactly when the host variable or the API-key variable is empty;
the multierror names each missing variable; the space variable may be
empty without error; and prompting is enabled exactly when the CI
variable is absent. -/
theorem newClientFactoryFromEnvironment_validation
    (parseURL : String → Except GoError URL) (env : Env) (u : URL)
    (hparse : parseURL env.host = .ok u) :
    ((∃ e, newClientFactoryFromEnvironment parseURL env = .error e) ↔
      (env.host = "" ∨ env.apiKey = "")) ∧
    (env.host = "" → ∃ vars,
      newClientFactoryFromEnvironment parseURL env = .error (.envMissing vars) ∧
      "OCTOPUS_HOST" ∈ vars) ∧
    (env.apiKey = "" → ∃ vars,
      newClientFactoryFromEnvironment parseURL env = .error (.envMissing vars) ∧
      "OCTOPUS_API_KEY" ∈ vars) ∧
    (env.host ≠ "" → env.apiKey ≠ "" →
      newClientFactoryFromEnvironment parseURL env
        = .ok { SystemClient := none, SpaceScopedClient := none, ApiUrl := u,
                ApiKey := env.apiKey, SpaceNameOrID := env.space,
                ActiveSpace := none, Ask := !env.ciSet }) := by
  by_cases hh : env.host = ""
  · by_cases hk : env.apiKey = ""
    · refine ⟨⟨fun _ => Or.inl hh, fun _ => ?_⟩, fun _ => ?_, fun _ => ?_,
              fun hcon _ => absurd hh hcon⟩
      · exact ⟨.envMissing ["OCTOPUS_HOST", "OCTOPUS_API_KEY"],
          by simp [newClientFactoryFromEnvironment,
                   validateMandatoryEnvironment, hh, hk]⟩
      · exact ⟨["OCTOPUS_HOST", "OCTOPUS_API_KEY"],
          by simp [newClientFactoryFromEnvironment,
                   validateMandatoryEnvironment, hh, hk], by simp⟩
      · exact ⟨["OCTOPUS_HOST", "OCTOPUS_API_KEY"],
          by simp [newClientFactoryFromEnvironment,
                   validateMandatoryEnvironment, hh, hk], by simp⟩
    · refine ⟨⟨fun _ => Or.inl hh, fun _ => ?_⟩, fun _ => ?_,
              fun hkc => absurd hkc hk, fun hcon _ => absurd hh hcon⟩
      · exact ⟨.envMissing ["OCTOPUS_HOST"],
          by simp [newClientFactoryFromEnvironment,
                   validateMandatoryEnvironment, hh, hk]⟩
      · exact ⟨["OCTOPUS_HOST"],
          by simp [newClientFactoryFromEnvironment,
                   validateMandatoryEnvironment, hh, hk], by simp⟩
  · by_cases hk : env.apiKey = ""
    · refine ⟨⟨fun _ => Or.inr hk, fun _ => ?_⟩,
              fun hhc => absurd hhc hh, fun _ => ?_,
              fun _ hcon => absurd hk hcon⟩
      · exact ⟨.envMissing ["OCTOPUS_API_KEY"],
          by simp [newClientFactoryFromEnvironment,
                   validateMandatoryEnvironment, hh, hk]⟩
      · exact ⟨["OCTOPUS_API_KEY"],
          by simp [newClientFactoryFromEnvironment,
                   validateMandatoryEnvironment, hh, hk], by simp⟩
    · have hok : newClientFactoryFromEnvironment parseURL env
          = .ok { SystemClient := none, SpaceScopedClient := none, ApiUrl := u,
                  ApiKey := env.apiKey, SpaceNameOrID := env.space,
                  ActiveSpace := none, Ask := !env.ciSet } := by
        unfold newClientFactoryFromEnvironment validateMandatoryEnvironment
          newClientFactory
        simp [hh, hk, hparse]
      refine ⟨⟨?_, fun hor => ?_⟩, fun hhc => absurd hhc hh,
              fun hkc => absurd hkc hk, fun _ _ => hok⟩
      · rintro ⟨e, he⟩
        rw [hok] at he
        cases he
      · rcases hor with hhc | hkc
        · exact absurd hhc hh
        · exact absurd hkc hk

theorem newClientFactoryFromEnvironment_validation_witness :
    ∃ vars,
      newClientFactoryFromEnvironment parseAlwaysOk
          { host := "", apiKey := "API-123", space := "", ciSet := true }
        = .error (.envMissing vars) ∧
      "OCTOPUS_HOST" ∈ vars :=
  (newClientFactoryFromEnvironment_validation parseAlwaysOk
      { host := "", apiKey := "API-123", space := "", ciSet := true }
      ⟨""⟩ rfl).2.1 rfl

/-- One call on the factory, carrying the behaviour of the outside
world during that call. -/
inductive Op where
  | getSystem (w : World)
  | getSpaced (w : World)
  | getActive
  | setSpace (id : String)

/-- The state transition of one factory call (`GetActiveSpace` reads
only and leaves the state unchanged). -/
def applyOp (c : Client) : Op → Client
  | .getSystem w => (getSystemClient w c).2.1
  | .getSpaced w => (getSpacedClient w c).2.1
  | .getActive => c
  | .setSpace id => setSpaceNameOrId id c

/-- The state after a sequence of factory calls. -/
def runOps (c : Client) : List Op → Client
  | [] => c
  | op :: rest => runOps (applyOp c op) rest

theorem finishScoped_cacheOk (w : World) (c : Client) (fid : String)
    (t : List Event) (h : c.SpaceScopedClient = none) :
    CacheOk (finishScoped w c fid t).2.1 := by
  unfold finishScoped CacheOk
  cases hn : w.newClient fid
  · simp [h]
  · simp

theorem lookupThenFinish_cacheOk (w : World) (c : Client) (fid : String)
    (t : List Event) (h : c.SpaceScopedClient = none) :
    CacheOk (lookupThenFinish w c fid t).2.1 := by
  by_cases hf : fid = ""
  · subst hf
    cases hg : w.getAllSpaces with
    | error e =>
      rw [lookupThenFinish_empty_err w c t e hg]
      simp [CacheOk, h]
    | ok l =>
      rw [lookupThenFinish_empty_ok w c t l hg]
      cases hfl : findSpaceLoop c.SpaceNameOrID l none with
      | none => simp [CacheOk, h]
      | some s =>
        simp only []
        exact finishScoped_cacheOk w _ s.ID _ (by simp [h])
  · rw [lookupThenFinish_nonempty w c fid t hf]
    exact finishScoped_cacheOk w c fid t h

theorem getSystemClient_cacheOk (w : World) (c : Client) (h : CacheOk c) :
    CacheOk (getSystemClient w c).2.1 := by
  unfold getSystemClient
  cases hs : c.SpaceScopedClient with
  | some sc => simpa using h
  | none =>
    cases hsys : c.SystemClient with
    | some sys => simpa using h
    | none =>
      cases hn : w.newClient "" with
      | error e => simpa using h
      | ok sys => simp [CacheOk, hs]

theorem getSpacedClient_cacheOk (w : World) (c : Client) (h : CacheOk c) :
    CacheOk (getSpacedClient w c).2.1 := by
  unfold getSpacedClient
  cases hs : c.SpaceScopedClient with
  | some sc => simpa using h
  | none =>
    have hc1 : (getSystemClient w c).2.1.SpaceScopedClient = none :=
      (getSystemClient_scoped_none w c hs).1
    rcases hg : getSystemClient w c with ⟨res, c1, t1⟩
    rw [hg] at hc1
    simp only [] at hc1
    cases res with
    | error e => simp [CacheOk, hc1]
    | ok sys =>
      dsimp only
      by_cases hid : c1.SpaceNameOrID = ""
      · rw [if_pos hid]
        by_cases hask : c1.Ask = false
        · rw [if_pos hask]
          simp [CacheOk, hc1]
        · rw [if_neg hask]
          cases hga : w.getAllSpaces with
          | error e => simp [CacheOk, hc1]
          | ok l =>
            rcases l with _ | ⟨a, _ | ⟨b, rest⟩⟩
            · simp [CacheOk, hc1]
            · exact lookupThenFinish_cacheOk w _ a.ID _ (by simp [hc1])
            · cases ha : w.askSelect (a :: b :: rest) with
              | error e => simp [CacheOk, hc1, ha]
              | ok s =>
                simp only [ha]
                exact lookupThenFinish_cacheOk w _ s.ID _
                  (by first | rfl | exact hc1)
      · rw [if_neg hid]
        exact lookupThenFinish_cacheOk w c1 "" t1 hc1

theorem applyOp_cacheOk (c : Client) (op : Op) (h : CacheOk c) :
    CacheOk (applyOp c op) := by
  cases op with
  | getSystem w => exact getSystemClient_cacheOk w c h
  | getSpaced w => exact getSpacedClient_cacheOk w c h
  | getActive => exact h
  | setSpace id => simp [applyOp, setSpaceNameOrId, CacheOk]

theorem runOps_cacheOk (ops : List Op) (c : Client) (h : CacheOk c) :
    CacheOk (runOps c ops) := by
  induction ops generalizing c with
  | nil => exact h
  | cons op rest ih => exact ih (applyOp c op) (applyOp_cacheOk c op h)

/-- C10: from any freshly constructed factory, after any sequence of
GetSystemClient / GetSpacedClient / GetActiveSpace / SetSpaceNameOrId
calls, the two cached handles are never simultaneously present: whenever
the space-scoped handle is cached, the system handle field is cleared. -/
theorem factory_cache_handles_exclusive
    (parseURL : String → Except GoError URL)
    (host apiKey spaceNameOrID : String) (ask : Bool) (c : Client)
    (hc : newClientFactory parseURL host apiKey spaceNameOrID ask = .ok c)
    (ops : List Op) :
    ((runOps c ops).SpaceScopedClient.isSome →
      (runOps c ops).SystemClient = none) ∧
    ¬((runOps c ops).SystemClient.isSome ∧
      (runOps c ops).SpaceScopedClient.isSome) := by
  have hinit : CacheOk c := by
    unfold newClientFactory at hc
    cases hp : parseURL host with
    | error e => rw [hp] at hc; cases hc
    | ok u =>
      rw [hp] at hc
      injection hc with hc
      rw [← hc]
      intro _
      rfl
  have hrun := runOps_cacheOk ops c hinit
  refine ⟨hrun, ?_⟩
  rintro ⟨hsys, hsc⟩
  rw [hrun hsc] at hsys
  simp at hsys

/-- The factory state produced by `newClientFactory` on concrete inputs. -/
def c10Init : Client :=
  { SystemClient := none, SpaceScopedClient := none, ApiUrl := ⟨"http://h"⟩,
    ApiKey := "k", SpaceNameOrID := "Default", ActiveSpace := none, Ask := true }

/-- A concrete call sequence: system handle, spaced handle, reset, spaced
handle again. -/
def ops10 : List Op :=
  [.getSystem wTwoSpaces, .getSpaced wTwoSpaces, .setSpace "Beta",
   .getSpaced wTwoSpaces]

theorem factory_cache_handles_exclusive_witness :
    ((runOps c10Init ops10).SpaceScopedClient.isSome →
      (runOps c10Init ops10).SystemClient = none) ∧
    ¬((runOps c10Init ops10).SystemClient.isSome ∧
      (runOps c10Init ops10).SpaceScopedClient.isSome) :=
  factory_cache_handles_exclusive parseAlwaysOk "http://h" "k" "Default" true
    c10Init rfl ops10
